import Mathlib

/-!
Verification of the opengamesir HID protocol client.

The Rust sources (src/profile.rs, src/state.rs, src/main.rs) are shallowly
embedded below.  Byte buffers are `List Nat`; Rust panics (`todo!`, `assert!`,
out-of-bounds indexing or slicing, failing `try_into().unwrap()`) are
distinguished from returned `eyre::Result` errors by dedicated constructors,
so each theorem can tell a crash apart from a recoverable error value.
-/

namespace Opengamesir

/-! ## Binary profile codec (src/profile.rs, `LightProfile` and friends)

The Rust code reads from an `std::io::Cursor`; we model a reader as the list
of bytes not yet consumed, and each `read` returns the decoded value together
with the remaining bytes, or `none` where the Rust `?` operator would
propagate an error (short read / invalid config index).
-/

/-- One `read_u8` step: fails exactly when the buffer is exhausted. -/
def readU8 : List Nat → Option (Nat × List Nat)
  | [] => none
  | b :: rest => some (b, rest)

/-- RgbColor from src/profile.rs: three bytes red, green, blue. -/
structure RgbColor where
  red : Nat
  green : Nat
  blue : Nat
deriving DecidableEq, Repr

/-- RgbColor::read — three sequential `read_u8` calls. -/
def RgbColor.read (l : List Nat) : Option (RgbColor × List Nat) :=
  match readU8 l with
  | none => none
  | some (red, l) =>
    match readU8 l with
    | none => none
    | some (green, l) =>
      match readU8 l with
      | none => none
      | some (blue, l) => some (⟨red, green, blue⟩, l)

/-- The fixed-count `ArrayBuilder` loops of src/profile.rs: `n` sequential
reads with the given element reader.  The builder is always exactly filled by
the loop, so `build()` never fails; a short stream fails inside the loop. -/
def readArray (rd : List Nat → Option (α × List Nat)) :
    Nat → List Nat → Option (List α × List Nat)
  | 0, l => some ([], l)
  | n + 1, l =>
    match rd l with
    | none => none
    | some (x, l) =>
      match readArray rd n l with
      | none => none
      | some (xs, l) => some (x :: xs, l)

/-- Frame from src/profile.rs: 5 RgbColors, one per LED zone. -/
structure Frame where
  leds : List RgbColor
deriving DecidableEq, Repr

/-- Frame::read — an ArrayBuilder loop of 5 RgbColor reads. -/
def Frame.read (l : List Nat) : Option (Frame × List Nat) :=
  match readArray RgbColor.read 5 l with
  | none => none
  | some (leds, l) => some (⟨leds⟩, l)

/-- Animation from src/profile.rs. -/
structure Animation where
  key_frame_count : Nat
  effect_count : Nat
  speed : Nat
  brightness : Nat
  frames : List Frame
deriving DecidableEq, Repr

/-- Animation::read — four scalar bytes then 8 Frames. -/
def Animation.read (l : List Nat) : Option (Animation × List Nat) :=
  match readU8 l with
  | none => none
  | some (key_frame_count, l) =>
    match readU8 l with
    | none => none
    | some (effect_count, l) =>
      match readU8 l with
      | none => none
      | some (speed, l) =>
        match readU8 l with
        | none => none
        | some (brightness, l) =>
          match readArray Frame.read 8 l with
          | none => none
          | some (frames, l) =>
            some (⟨key_frame_count, effect_count, speed, brightness, frames⟩, l)

/-- LightProfile from src/profile.rs. -/
structure LightProfile where
  config_index : Nat
  animations : List Animation
  audio_reactive_mode : Bool
  user_effect_index : Nat
  profile_led : RgbColor
  raise_wake_up : Bool
  standby_time : Nat
  reserved_data : List Nat
deriving DecidableEq, Repr

/-- LightProfile::read — sequential fixed-width reads in declaration order:
config index (bail if greater than 3), 5 Animations, audio-reactive byte
(`== 1`), user effect index, one RgbColor, wake-up byte (`== 1`), standby
byte, then `read_exact` of 7 reserved bytes. -/
def LightProfile.read (l : List Nat) : Option (LightProfile × List Nat) :=
  match readU8 l with
  | none => none
  | some (config_index, l) =>
    if 3 < config_index then none
    else
      match readArray Animation.read 5 l with
      | none => none
      | some (animations, l) =>
        match readU8 l with
        | none => none
        | some (audio, l) =>
          match readU8 l with
          | none => none
          | some (user_effect_index, l) =>
            match RgbColor.read l with
            | none => none
            | some (profile_led, l) =>
              match readU8 l with
              | none => none
              | some (wake, l) =>
                match readU8 l with
                | none => none
                | some (standby_time, l) =>
                  if l.length < 7 then none
                  else
                    some (⟨config_index, animations, audio == 1, user_effect_index,
                           profile_led, wake == 1, standby_time, l.take 7⟩, l.drop 7)

/-- Profile from src/profile.rs — only the light variant exists. -/
inductive Profile
  | light (p : LightProfile)
deriving DecidableEq, Repr

/-! ## Profile reassembler (src/profile.rs, `ProfileParser`) -/

/-- ProfileParser from src/profile.rs: the 635-byte accumulation buffer. -/
structure ProfileParser where
  color_buf : List Nat
deriving DecidableEq, Repr

/-- ProfileParser::new — `vec![0; 635]`. -/
def ProfileParser.new : ProfileParser := ⟨List.replicate 635 0⟩

/-- Outcome of `ProfileParser::accept`, separating Rust panics (`todo!`,
`assert!`, out-of-range indexing) from returned `eyre::Result` values.  Each
constructor carries the accumulation buffer as it stands when the call ends:
a panic happens before the splice, so `panicked` carries the untouched
buffer. -/
inductive AcceptResult
  | panicked (color_buf : List Nat)
  | failed (color_buf : List Nat)
  | ok (profile : Option Profile) (color_buf : List Nat)
deriving DecidableEq, Repr

/-- True exactly on a returned `Err` value (not on a panic). -/
def AcceptResult.isErrorReturn : AcceptResult → Bool
  | .failed _ => true
  | _ => false

/-- True exactly on a Rust panic. -/
def AcceptResult.isPanic : AcceptResult → Bool
  | .panicked _ => true
  | _ => false

/-- ProfileParser::accept from src/profile.rs, statement by statement:
`data[2]` (panic if out of range), `todo!` unless the profile kind is 32,
`data[3] data[4] data[5]`, the `assert!(start + len <= target)`, the
`data[6..6 + len]` slice (panic if out of range), the `splice` into
`color_buf` (panic if the range exceeds the buffer), and on completion the
`LightProfile::read` whose error the `?` operator returns as `Err`. -/
def ProfileParser.accept (self : ProfileParser) (data : List Nat) : AcceptResult :=
  if data.length < 3 then .panicked self.color_buf
  else
    let profile_index := data.getD 2 0
    if profile_index ≠ 32 then .panicked self.color_buf
    else if data.length < 6 then .panicked self.color_buf
    else
      let start_index := 256 * data.getD 3 0 + data.getD 4 0
      let packet_data_length := data.getD 5 0
      let target_packet_length := if profile_index = 32 then 635 else 680
      if target_packet_length < start_index + packet_data_length then
        .panicked self.color_buf
      else
        let is_complete := start_index + packet_data_length = target_packet_length
        if data.length < 6 + packet_data_length then .panicked self.color_buf
        else if self.color_buf.length < start_index + packet_data_length then
          .panicked self.color_buf
        else
          let new_buf := self.color_buf.take start_index
            ++ (data.drop 6).take packet_data_length
            ++ self.color_buf.drop (start_index + packet_data_length)
          if ¬ is_complete then .ok none new_buf
          else
            match LightProfile.read new_buf with
            | none => .failed new_buf
            | some (p, _) => .ok (some (.light p)) new_buf

/-! ## Profile command builder (src/profile.rs) -/

/-- usize::div_ceil with divisor 58, as used for the packet count. -/
def divCeil58 (n : Nat) : Nat := n / 58 + if n % 58 = 0 then 0 else 1

/-- One outgoing read-profile packet: six header bytes written into a zeroed
64-byte buffer.  `i` is the packet index, `t` the bytes still remaining. -/
def mk_read_packet (i t : Nat) : List Nat :=
  [15, 4, 32, (i * 58) / 256, (i * 58) % 256, min t 58] ++ List.replicate 58 0

/-- The `(0..i).map` loop of get_read_profile_command: `n` packets starting
at packet index `i` with `t` bytes remaining.  The
`((i * 58) / 256).try_into::<u8>().unwrap()` panics (modelled as `none`) when
the high offset byte exceeds 255. -/
def read_packets_go : Nat → Nat → Nat → Option (List (List Nat))
  | 0, _, _ => some []
  | n + 1, i, t =>
    if 255 < (i * 58) / 256 then none
    else (read_packets_go n (i + 1) (t - 58)).map fun ps => mk_read_packet i t :: ps

/-- get_read_profile_command generalized over the target length `t`; the
source fixes `t` to 635 (light) or 680. -/
def read_profile_packets (t : Nat) : Option (List (List Nat)) :=
  read_packets_go (divCeil58 t) 0 t

/-- get_read_profile_command from src/profile.rs. -/
def get_read_profile_command (is_light_profile : Bool) : Option (List (List Nat)) :=
  read_profile_packets (if is_light_profile then 635 else 680)

/-- One outgoing write-profile packet: six header bytes, then
`data[dstart..dstart + size]`, in a zeroed 64-byte buffer. -/
def mk_write_packet (data : List Nat) (s size dstart : Nat) : List Nat :=
  [15, 3, 32, s / 256, s % 256, size]
    ++ (data.drop dstart).take size ++ List.replicate (58 - size) 0

/-- The packet loop of build_write_profile_command: `n` packets starting at
loop index `i` with `remaining` bytes left to send.  The
`(start_index / 256).try_into::<u8>().unwrap()` panic is modelled as
`none`. -/
def write_packets_go (data : List Nat) (start_index : Nat) :
    Nat → Nat → Nat → Option (List (List Nat))
  | 0, _, _ => some []
  | n + 1, i, remaining =>
    let s := start_index + i * 58
    if 255 < s / 256 then none
    else
      let size := min remaining 58
      (write_packets_go data start_index n (i + 1) (remaining - size)).map
        fun ps => mk_write_packet data s size (data.length - remaining) :: ps

/-- build_write_profile_command from src/profile.rs. -/
def build_write_profile_command (data : List Nat) (start_index : Nat) :
    Option (List (List Nat)) :=
  write_packets_go data start_index (divCeil58 data.length) 0 data.length

/-! ## Gamepad state decoder (src/state.rs) -/

/-- is_bit_set from src/state.rs: `bits & (1 << n) != 0`. -/
def is_bit_set (bits n : Nat) : Bool := bits &&& (1 <<< n) ≠ 0

/-- RecordKey from src/state.rs. -/
inductive RecordKey
  | FL1
  | FR1
deriving DecidableEq, Repr

/-- The values parse_gamepad_state derives from an input report.  The field
`is_recording` models the source local whose name starts with the word
"macro" (macro + record_state), which cannot be used as an identifier
here. -/
structure GamepadState where
  is_recording : Bool
  record_key : Option RecordKey
  charge_state : Nat
  battery_level : Nat
  config_index : Nat
  colors : List (Nat × Nat × Nat)
deriving DecidableEq, Repr

/-- The `(r, g, b)` triple read in the colors loop of parse_gamepad_state. -/
def read_rgb_triple (l : List Nat) : Option ((Nat × Nat × Nat) × List Nat) :=
  match readU8 l with
  | none => none
  | some (r, l) =>
    match readU8 l with
    | none => none
    | some (g, l) =>
      match readU8 l with
      | none => none
      | some (b, l) => some ((r, g, b), l)

/-- parse_gamepad_state from src/state.rs.  `buf[53]` and the `&buf[35..53]`
slice panic when out of range (modelled as `none`); the cursor reads inside
the 18-byte slice are `unwrap`ped, so a short slice would also be a panic.
The source only logs the derived values; we return them as the decoder's
observable result. -/
def parse_gamepad_state (buf : List Nat) : Option GamepadState :=
  match buf.get? 53 with
  | none => none
  | some b53 =>
    if buf.length < 53 then none
    else
      let m_record_state := is_bit_set b53 0 || is_bit_set b53 1
      let record_key :=
        if is_bit_set b53 4 then some RecordKey.FL1
        else if is_bit_set b53 5 then some RecordKey.FR1
        else none
      let s := (buf.drop 35).take 18
      match readU8 s with
      | none => none
      | some (charge_state, s) =>
        match readU8 s with
        | none => none
        | some (battery_level, s) =>
          match readU8 s with
          | none => none
          | some (config_index, s) =>
            match readArray read_rgb_triple 5 s with
            | none => none
            | some (colors, _) =>
              some ⟨m_record_state, record_key, charge_state, battery_level,
                    config_index, colors⟩

/-! ## Worker loop ack dispatch (src/main.rs)

The worker thread in main.rs, once a non-state packet has been matched
against the head of the write queue, dispatches on `buf[1]`.  We embed that
dispatch: it consumes the inbound packet, the current request slot and the
profile parser, and produces the new request slot, the new parser and the
observable event (a warning, a reported parse error, a completion, a panic,
or silently ignoring an unknown code).
-/

/-- Request from src/main.rs (the oneshot result senders are modelled by the
completion events of `handle_ack_packet`). -/
inductive Request
  | heartbeat
  | getColorProfile
  | getFirmwareVersion
deriving DecidableEq, Repr

/-- The observable outcome of one ack-dispatch step of the worker loop. -/
inductive WorkerEvent
  | panicked
  | warnedUnexpectedProfileAck
  | warnedUnexpectedFirmwareAck
  | reportedParseError
  | acceptedChunk
  | completedProfile (p : Profile)
  | completedFirmware (fw_version dongle_version : List Nat)
  | ignoredUnknownCode
deriving DecidableEq, Repr

/-- Result of one ack-dispatch step: the request slot and parser afterwards,
plus the observable event. -/
structure HandleResult where
  current_req : Option Request
  parser : ProfileParser
  event : WorkerEvent
deriving DecidableEq, Repr

/-- The slice `&buf[a..b]` as a list. -/
def byteSlice (l : List Nat) (a b : Nat) : List Nat := (l.drop a).take (b - a)

/-- The `match buf[1]` ack dispatch of the worker loop in src/main.rs:

* code 5 (READ_PROFILE_ACK): if the current request is not GetColorProfile,
  warn and continue, leaving the request slot untouched; otherwise feed the
  packet to `ProfileParser::accept` — a parse error is reported and the loop
  continues; a completed profile is sent by `current_req.take()`.
* code 10 (READ_FIRMWARE_VERSION_ACK): the source runs `current_req.take()`
  inside the `let ... else` scrutinee, so the slot is emptied BEFORE the
  pattern is tested; on a match the version strings are the lossy decodings
  of `&buf[4..9]` and `&buf[12..17]` (panic when out of range).
* any other code: the packet is dropped silently. -/
def handle_ack_packet (buf : List Nat) (current_req : Option Request)
    (parser : ProfileParser) : HandleResult :=
  match buf.get? 1 with
  | none => ⟨current_req, parser, .panicked⟩
  | some code =>
    if code = 5 then
      if current_req ≠ some .getColorProfile then
        ⟨current_req, parser, .warnedUnexpectedProfileAck⟩
      else
        match parser.accept buf with
        | .panicked b => ⟨current_req, ⟨b⟩, .panicked⟩
        | .failed b => ⟨current_req, ⟨b⟩, .reportedParseError⟩
        | .ok none b => ⟨current_req, ⟨b⟩, .acceptedChunk⟩
        | .ok (some p) b => ⟨none, ⟨b⟩, .completedProfile p⟩
    else if code = 10 then
      match current_req with
      | some .getFirmwareVersion =>
        if buf.length < 17 then ⟨none, parser, .panicked⟩
        else ⟨none, parser,
              .completedFirmware (byteSlice buf 4 9) (byteSlice buf 12 17)⟩
      | _ => ⟨none, parser, .warnedUnexpectedFirmwareAck⟩
    else ⟨current_req, parser, .ignoredUnknownCode⟩

/-! ## Scenario material for the theorems -/

/-- Chunk length used by the command builder for target length 635:
`min (635 - 58 i) 58` (58 for the first ten chunks, 55 for the last). -/
def chunk_len (i : Nat) : Nat := min (635 - 58 * i) 58

/-- The device acknowledgment packet carrying chunk `i` of a stored profile
`P`: READ_PROFILE_ACK code in byte 1, profile kind 32 in byte 2, the
big-endian-style offset `58 * i` in bytes 3–4, the chunk length in byte 5,
then the corresponding slice of `P`. -/
def ack_chunk (P : List Nat) (i : Nat) : List Nat :=
  [0, 5, 32, (58 * i) / 256, (58 * i) % 256, chunk_len i]
    ++ (P.drop (58 * i)).take (chunk_len i)

/-- The parser accumulation buffer after the first `k` chunks of `P` landed:
a prefix of `P` followed by the untouched zero fill. -/
def partial_buf (P : List Nat) (k : Nat) : List Nat :=
  P.take (58 * k) ++ List.replicate (635 - 58 * k) 0

/-- Feed a list of packets to the parser in order, collecting each call's
`Ok` payload; any panic or returned error stops the run with `none`. -/
def acceptAll (st : ProfileParser) : List (List Nat) → Option (List (Option Profile) × ProfileParser)
  | [] => some ([], st)
  | d :: ds =>
    match st.accept d with
    | .ok p st2 => (acceptAll ⟨st2⟩ ds).map fun q => (p :: q.1, q.2)
    | _ => none

/-- Modelled from the spec: "bytes 4–9 = firmware version (ASCII,
lossy-decoded)".  The spec states byte ranges inclusively (it calls bytes
35–52 an 18-byte range), so this is the six bytes at indices 4 through 9. -/
def fw_version_bytes_per_spec (buf : List Nat) : List Nat := byteSlice buf 4 10

/-- A firmware-version acknowledgment packet (byte 1 = 10) whose bytes
4 through 9 hold the ASCII text "1.2.34" and whose bytes 12 through 17 hold
"9.9.98". -/
def fw_ack_sample_packet : List Nat :=
  [0, 10, 0, 0, 49, 46, 50, 46, 51, 52, 0, 0, 57, 46, 57, 46, 57, 56]
    ++ List.replicate 46 0

/-- A 64-byte firmware-version acknowledgment packet with empty payload. -/
def fw_ack_plain_packet : List Nat := [0, 10] ++ List.replicate 62 0

/-- A 64-byte profile-chunk acknowledgment packet with empty payload. -/
def profile_ack_plain_packet : List Nat := [0, 5] ++ List.replicate 62 0

/-- A 64-byte READ_PROFILE_ACK packet whose profile-kind byte (index 2) is 0
rather than 32. -/
def bad_kind_chunk : List Nat := [0, 5, 0, 0, 0, 0] ++ List.replicate 58 0

/-- A reader consumes exactly `k` bytes: it succeeds precisely on buffers of
length at least `k`, and then leaves exactly the input with its first `k`
bytes dropped. -/
def Consumes (rd : List Nat → Option (α × List Nat)) (k : Nat) : Prop :=
  ∀ l : List Nat,
    (k ≤ l.length → ∃ x, rd l = some (x, l.drop k)) ∧
    (∀ x r, rd l = some (x, r) → k ≤ l.length ∧ r = l.drop k)

/-! # Theorems -/

/-! ## Reader length lemmas -/

theorem readU8_cons (b : Nat) (t : List Nat) : readU8 (b :: t) = some (b, t) := rfl

theorem readU8_consumes : Consumes readU8 1 := by
  intro l
  cases l with
  | nil =>
    refine ⟨by simp, ?_⟩
    intro x r h
    simp [readU8] at h
  | cons b t =>
    refine ⟨fun _ => ⟨b, rfl⟩, ?_⟩
    intro x r h
    simp only [readU8, Option.some.injEq, Prod.mk.injEq] at h
    simp [← h.2]

theorem readArray_consumes {α : Type} {rd : List Nat → Option (α × List Nat)} {k : Nat}
    (h : Consumes rd k) : ∀ n, Consumes (readArray rd n) (n * k) := by
  intro n
  induction n with
  | zero =>
    intro l
    refine ⟨fun _ => ⟨[], by simp [readArray]⟩, ?_⟩
    intro x r hr
    simp only [readArray, Option.some.injEq, Prod.mk.injEq] at hr
    simp [← hr.2]
  | succ n ih =>
    intro l
    constructor
    · intro hlen
      rw [Nat.succ_mul] at hlen
      obtain ⟨x, hx⟩ := (h l).1 (by omega)
      obtain ⟨xs, hxs⟩ := (ih (l.drop k)).1 (by simp; omega)
      refine ⟨x :: xs, ?_⟩
      rw [show (n + 1) * k = k + n * k by rw [Nat.succ_mul, Nat.add_comm]]
      simp only [readArray, hx, hxs, List.drop_drop]
    · intro x r hr
      simp only [readArray] at hr
      split at hr
      · simp at hr
      · next a l2 heq =>
        split at hr
        · simp at hr
        · next xs l3 heq2 =>
          obtain ⟨hk, hl2⟩ := (h l).2 a l2 heq
          subst hl2
          obtain ⟨hnk, hl3⟩ := (ih (l.drop k)).2 xs l3 heq2
          simp only [List.length_drop] at hnk
          simp only [Option.some.injEq, Prod.mk.injEq] at hr
          refine ⟨by rw [Nat.succ_mul]; omega, ?_⟩
          rw [← hr.2, hl3, List.drop_drop, Nat.succ_mul, Nat.add_comm k (n * k)]

theorem rgb_read_consumes : Consumes RgbColor.read 3 := by
  intro l
  constructor
  · intro h3
    obtain ⟨r, hr⟩ := (readU8_consumes l).1 (by omega)
    obtain ⟨g, hg⟩ := (readU8_consumes (l.drop 1)).1 (by simp; omega)
    obtain ⟨b, hb⟩ := (readU8_consumes ((l.drop 1).drop 1)).1 (by simp; omega)
    refine ⟨⟨r, g, b⟩, ?_⟩
    simp only [RgbColor.read, hr, hg, hb]
    simp [List.drop_drop]
  · intro x r hx
    simp only [RgbColor.read] at hx
    split at hx
    · simp at hx
    · next a l1 h1 =>
      split at hx
      · simp at hx
      · next b l2 h2 =>
        split at hx
        · simp at hx
        · next c l3 h3 =>
          obtain ⟨k1, e1⟩ := (readU8_consumes l).2 a l1 h1
          subst e1
          obtain ⟨k2, e2⟩ := (readU8_consumes (l.drop 1)).2 b l2 h2
          subst e2
          obtain ⟨k3, e3⟩ := (readU8_consumes ((l.drop 1).drop 1)).2 c l3 h3
          simp only [List.length_drop] at k2 k3
          simp only [Option.some.injEq, Prod.mk.injEq] at hx
          exact ⟨by omega, by rw [← hx.2, e3]; simp [List.drop_drop]⟩

theorem frame_read_consumes : Consumes Frame.read 15 := by
  have h5 := readArray_consumes rgb_read_consumes 5
  intro l
  constructor
  · intro h15
    obtain ⟨xs, hxs⟩ := (h5 l).1 (by omega)
    exact ⟨⟨xs⟩, by simp only [Frame.read, hxs]⟩
  · intro x r hx
    simp only [Frame.read] at hx
    split at hx
    · simp at hx
    · next xs l1 h1 =>
      obtain ⟨k1, e1⟩ := (h5 l).2 xs l1 h1
      simp only [Option.some.injEq, Prod.mk.injEq] at hx
      exact ⟨by omega, by rw [← hx.2, e1]⟩

theorem animation_read_consumes : Consumes Animation.read 124 := by
  have h8 := readArray_consumes frame_read_consumes 8
  intro l
  constructor
  · intro h124
    obtain ⟨a, ha⟩ := (readU8_consumes l).1 (by omega)
    obtain ⟨b, hb⟩ := (readU8_consumes (l.drop 1)).1 (by simp; omega)
    obtain ⟨c, hc⟩ := (readU8_consumes ((l.drop 1).drop 1)).1 (by simp; omega)
    obtain ⟨d, hd⟩ := (readU8_consumes (((l.drop 1).drop 1).drop 1)).1 (by simp; omega)
    obtain ⟨fs, hfs⟩ := (h8 ((((l.drop 1).drop 1).drop 1).drop 1)).1 (by simp; omega)
    refine ⟨⟨a, b, c, d, fs⟩, ?_⟩
    simp only [Animation.read, ha, hb, hc, hd, hfs]
    simp [List.drop_drop]
  · intro x r hx
    simp only [Animation.read] at hx
    split at hx
    · simp at hx
    · next a l1 e1 =>
      split at hx
      · simp at hx
      · next b l2 e2 =>
        split at hx
        · simp at hx
        · next c l3 e3 =>
          split at hx
          · simp at hx
          · next d l4 e4 =>
            split at hx
            · simp at hx
            · next fs l5 e5 =>
              obtain ⟨k1, f1⟩ := (readU8_consumes l).2 a l1 e1
              subst f1
              obtain ⟨k2, f2⟩ := (readU8_consumes (l.drop 1)).2 b l2 e2
              subst f2
              obtain ⟨k3, f3⟩ := (readU8_consumes ((l.drop 1).drop 1)).2 c l3 e3
              subst f3
              obtain ⟨k4, f4⟩ :=
                (readU8_consumes (((l.drop 1).drop 1).drop 1)).2 d l4 e4
              subst f4
              obtain ⟨k5, f5⟩ :=
                (h8 ((((l.drop 1).drop 1).drop 1).drop 1)).2 fs l5 e5
              simp only [List.length_drop] at k2 k3 k4 k5
              simp only [Option.some.injEq, Prod.mk.injEq] at hx
              exact ⟨by omega, by rw [← hx.2, f5]; simp [List.drop_drop]⟩

/-! ## Binary profile codec: claim C6 -/

theorem lightProfile_read_some (l : List Nat) (hlen : 635 ≤ l.length)
    (hcfg : l.getD 0 0 ≤ 3) : ∃ p, LightProfile.read l = some (p, l.drop 635) := by
  cases l with
  | nil => simp at hlen
  | cons c t =>
    simp only [List.getD_cons_zero] at hcfg
    have ht : 634 ≤ t.length := by simp only [List.length_cons] at hlen; omega
    have h5 := readArray_consumes animation_read_consumes 5
    obtain ⟨ans, hans⟩ := (h5 t).1 (by omega)
    norm_num at hans
    obtain ⟨au, hau⟩ := (readU8_consumes (t.drop 620)).1 (by simp; omega)
    obtain ⟨ue, hue⟩ := (readU8_consumes ((t.drop 620).drop 1)).1 (by simp; omega)
    obtain ⟨pl, hpl⟩ :=
      (rgb_read_consumes (((t.drop 620).drop 1).drop 1)).1 (by simp; omega)
    obtain ⟨wk, hwk⟩ :=
      (readU8_consumes ((((t.drop 620).drop 1).drop 1).drop 3)).1 (by simp; omega)
    obtain ⟨sb, hsb⟩ :=
      (readU8_consumes (((((t.drop 620).drop 1).drop 1).drop 3).drop 1)).1
        (by simp; omega)
    refine ⟨⟨c, ans, au == 1, ue, pl, wk == 1, sb,
      (((((t.drop 620).drop 1).drop 1).drop 3).drop 1).drop 1 |>.take 7⟩, ?_⟩
    simp only [LightProfile.read, readU8_cons]
    rw [if_neg (by omega)]
    simp only [hans, hau, hue, hpl, hwk, hsb]
    rw [if_neg (by simp [List.drop_drop]; omega)]
    simp [List.drop_drop]

theorem lightProfile_read_length {l : List Nat} {p : LightProfile} {r : List Nat}
    (h : LightProfile.read l = some (p, r)) : 635 ≤ l.length ∧ r = l.drop 635 := by
  simp only [LightProfile.read] at h
  split at h
  · simp at h
  · next cfg l1 e1 =>
    obtain ⟨k1, f1⟩ := (readU8_consumes l).2 cfg l1 e1
    subst f1
    split at h
    · simp at h
    · split at h
      · simp at h
      · next ans l2 e2 =>
        obtain ⟨k2, f2⟩ :=
          ((readArray_consumes animation_read_consumes 5) (l.drop 1)).2 ans l2 e2
        subst f2
        split at h
        · simp at h
        · next au l3 e3 =>
          obtain ⟨k3, f3⟩ := (readU8_consumes _).2 au l3 e3
          subst f3
          split at h
          · simp at h
          · next ue l4 e4 =>
            obtain ⟨k4, f4⟩ := (readU8_consumes _).2 ue l4 e4
            subst f4
            split at h
            · simp at h
            · next pl l5 e5 =>
              obtain ⟨k5, f5⟩ := (rgb_read_consumes _).2 pl l5 e5
              subst f5
              split at h
              · simp at h
              · next wk l6 e6 =>
                obtain ⟨k6, f6⟩ := (readU8_consumes _).2 wk l6 e6
                subst f6
                split at h
                · simp at h
                · next sb l7 e7 =>
                  obtain ⟨k7, f7⟩ := (readU8_consumes _).2 sb l7 e7
                  subst f7
                  split at h
                  · simp at h
                  · next hlen7 =>
                    simp only [Option.some.injEq, Prod.mk.injEq] at h
                    simp only [List.length_drop] at k2 k3 k4 k5 k6 k7 hlen7
                    constructor
                    · omega
                    · rw [← h.2]
                      simp [List.drop_drop]

/-- C6: `LightProfile::read` decodes by sequential fixed-width reads
consuming exactly 635 bytes: it succeeds on every buffer of length at least
635 whose first byte is at most 3, leaving exactly the bytes beyond the
635th; any shorter buffer (exhausted before a field is fully consumed) is a
decode error; and a config-index byte greater than 3 is a decode error. -/
theorem light_profile_read_spec :
    (∀ l : List Nat, 635 ≤ l.length → l.getD 0 0 ≤ 3 →
      ∃ p, LightProfile.read l = some (p, l.drop 635)) ∧
    (∀ l : List Nat, l.length < 635 → LightProfile.read l = none) ∧
    (∀ l : List Nat, l ≠ [] → 3 < l.getD 0 0 → LightProfile.read l = none) := by
  refine ⟨lightProfile_read_some, ?_, ?_⟩
  · intro l hl
    cases hr : LightProfile.read l with
    | none => rfl
    | some pr =>
      obtain ⟨p, r⟩ := pr
      have := lightProfile_read_length hr
      omega
  · intro l hnil hcfg
    cases l with
    | nil => simp at hnil
    | cons c t =>
      simp only [List.getD_cons_zero] at hcfg
      simp [LightProfile.read, readU8, hcfg]

/-- Witness: the codec succeeds on the all-zero 635-byte buffer, and errors
on the short buffer `[1, 2]` and on the invalid config index 4. -/
theorem light_profile_read_spec_witness :
    (∃ p, LightProfile.read (List.replicate 635 0) =
      some (p, List.drop 635 (List.replicate 635 0))) ∧
    LightProfile.read [1, 2] = none ∧
    LightProfile.read [4] = none :=
  ⟨light_profile_read_spec.1 _ (by rw [List.length_replicate])
     (by rw [show List.replicate 635 (0:Nat) = 0 :: List.replicate 634 0 from rfl,
             List.getD_cons_zero]; omega),
   light_profile_read_spec.2.1 _ (by simp),
   light_profile_read_spec.2.2 _ (by simp) (by simp)⟩

/-! ## Reassembler panic behaviour: claims C2, C4, C10 -/

/-- C2 (amended): an acknowledgment packet whose profile-kind byte (index 2)
is not 32 makes `ProfileParser::accept` hit the `todo!` — a Rust panic that
unwinds the worker thread with the accumulation buffer untouched — rather
than return a recoverable error value. -/
theorem accept_unknown_profile_kind_panics (data : List Nat) (st : ProfileParser)
    (h3 : 3 ≤ data.length) (hk : data.getD 2 0 ≠ 32) :
    st.accept data = .panicked st.color_buf := by
  simp only [ProfileParser.accept]
  rw [if_neg (show ¬ data.length < 3 by omega), if_pos hk]

/-- Counterexample to C2 as stated: on the concrete packet whose kind byte
is 0, `accept` panics; its result is not a returned error value. -/
theorem accept_unknown_kind_not_error_return :
    (ProfileParser.accept ProfileParser.new bad_kind_chunk).isPanic = true ∧
    (ProfileParser.accept ProfileParser.new bad_kind_chunk).isErrorReturn = false := by
  constructor <;> rfl

/-- Witness for accept_unknown_profile_kind_panics at the concrete kind-0
packet. -/
theorem accept_unknown_profile_kind_panics_witness :
    3 ≤ bad_kind_chunk.length ∧ bad_kind_chunk.getD 2 0 ≠ 32 ∧
    ProfileParser.accept ProfileParser.new bad_kind_chunk =
      .panicked ProfileParser.new.color_buf :=
  ⟨by decide, by decide,
   accept_unknown_profile_kind_panics bad_kind_chunk ProfileParser.new
     (by decide) (by decide)⟩

/-- C4: a chunk whose start offset (256 * byte 3 + byte 4) plus chunk length
(byte 5) exceeds the 635-byte target makes `accept` panic (the `assert!`, or
the `todo!` for a foreign kind byte) with the accumulation buffer exactly as
it was — no bytes are copied, no truncation happens. -/
theorem accept_overflowing_chunk_panics (data : List Nat) (st : ProfileParser)
    (h6 : 6 ≤ data.length)
    (hover : 635 < 256 * data.getD 3 0 + data.getD 4 0 + data.getD 5 0) :
    st.accept data = .panicked st.color_buf := by
  by_cases hk : data.getD 2 0 = 32
  · simp only [ProfileParser.accept]
    rw [if_neg (show ¬ data.length < 3 by omega), if_neg (not_not_intro hk),
      if_neg (show ¬ data.length < 6 by omega), if_pos hk, if_pos hover]
  · exact accept_unknown_profile_kind_panics data st (by omega) hk

/-- Witness for accept_overflowing_chunk_panics: offset 635, length 55. -/
theorem accept_overflowing_chunk_panics_witness :
    6 ≤ ([0, 5, 32, 2, 123, 55] : List Nat).length ∧
    635 < 256 * ([0, 5, 32, 2, 123, 55] : List Nat).getD 3 0
      + ([0, 5, 32, 2, 123, 55] : List Nat).getD 4 0
      + ([0, 5, 32, 2, 123, 55] : List Nat).getD 5 0 ∧
    ProfileParser.accept ProfileParser.new [0, 5, 32, 2, 123, 55] =
      .panicked ProfileParser.new.color_buf :=
  ⟨by decide, by decide,
   accept_overflowing_chunk_panics [0, 5, 32, 2, 123, 55] ProfileParser.new
     (by decide) (by decide)⟩

/-- C10: `accept` indexes its input without bounds checks: any input shorter
than 6 bytes, or shorter than 6 plus the chunk length its byte 5 declares,
makes it panic (out-of-range index or slice) instead of returning an error
value.  A slice shorter than 6 bytes is covered because its byte 5 defaults
to 0. -/
theorem accept_short_input_panics (data : List Nat) (st : ProfileParser)
    (hshort : data.length < 6 + data.getD 5 0) :
    st.accept data = .panicked st.color_buf := by
  by_cases h3 : data.length < 3
  · simp only [ProfileParser.accept]
    rw [if_pos h3]
  · by_cases hk : data.getD 2 0 = 32
    · by_cases h6 : data.length < 6
      · simp only [ProfileParser.accept]
        rw [if_neg h3, if_neg (not_not_intro hk), if_pos h6]
      · by_cases hov : 635 < 256 * data.getD 3 0 + data.getD 4 0 + data.getD 5 0
        · exact accept_overflowing_chunk_panics data st (by omega) hov
        · simp only [ProfileParser.accept]
          rw [if_neg h3, if_neg (not_not_intro hk), if_neg h6, if_pos hk,
            if_neg hov, if_pos hshort]
    · exact accept_unknown_profile_kind_panics data st (by omega) hk

/-- Witness for accept_short_input_panics: a 6-byte packet declaring a
10-byte payload it does not carry. -/
theorem accept_short_input_panics_witness :
    ([0, 5, 32, 0, 0, 10] : List Nat).length
      < 6 + ([0, 5, 32, 0, 0, 10] : List Nat).getD 5 0 ∧
    ProfileParser.accept ProfileParser.new [0, 5, 32, 0, 0, 10] =
      .panicked ProfileParser.new.color_buf :=
  ⟨by decide,
   accept_short_input_panics [0, 5, 32, 0, 0, 10] ProfileParser.new (by decide)⟩

/-! ## Profile command builder: claim C3 -/

theorem divCeil58_le_1130 (L : Nat) (h : L ≤ 65540) : divCeil58 L ≤ 1130 := by
  unfold divCeil58
  split <;> omega

theorem divCeil58_sub_58 {t n : Nat} (h : divCeil58 t = n + 1) :
    divCeil58 (t - 58) = n := by
  unfold divCeil58 at h ⊢
  split at h <;> split <;> omega

theorem divCeil58_pos {t n : Nat} (h : divCeil58 t = n + 1) : 1 ≤ t := by
  unfold divCeil58 at h
  split at h <;> omega

theorem hi_byte_le (m : Nat) (h : m < 65536) : ¬ 255 < m / 256 := by
  simp only [not_lt]
  exact Nat.le_of_lt_succ ((Nat.div_lt_iff_lt_mul (by omega)).mpr (by omega))

theorem getD_range_map (f : Nat → List Nat) (n j : Nat) (hj : j < n) :
    ((List.range n).map f).getD j [] = f j := by
  rw [List.getD_eq_getElem _ _ (by simpa using hj)]
  simp

theorem sum_min_len : ∀ n t : Nat, divCeil58 t = n →
    ((List.range n).map fun j => min (t - 58 * j) 58).sum = t := by
  intro n
  induction n with
  | zero =>
    intro t h
    have ht : t = 0 := by unfold divCeil58 at h; split at h <;> omega
    subst ht
    simp
  | succ n ih =>
    intro t h
    rw [List.range_succ_eq_map]
    simp only [List.map_cons, List.map_map, List.sum_cons]
    have hmap : (List.range n).map ((fun j => min (t - 58 * j) 58) ∘ Nat.succ)
        = (List.range n).map fun j => min (t - 58 - 58 * j) 58 := by
      refine List.map_congr_left ?_
      intro j _
      simp only [Function.comp_apply, Nat.succ_eq_add_one]
      congr 1
      omega
    rw [hmap, ih (t - 58) (divCeil58_sub_58 h)]
    have ht := divCeil58_pos h
    omega

theorem read_packets_go_spec :
    ∀ n i t : Nat, (∀ j, j < n → (i + j) * 58 < 65536) →
      read_packets_go n i t =
        some ((List.range n).map fun j => mk_read_packet (i + j) (t - 58 * j)) := by
  intro n
  induction n with
  | zero => intro i t _; simp [read_packets_go]
  | succ n ih =>
    intro i t h
    have h0 : i * 58 < 65536 := by simpa using h 0 (by omega)
    simp only [read_packets_go]
    rw [if_neg (hi_byte_le _ h0),
      ih (i + 1) (t - 58) (fun j hj => by
        have hij := h (j + 1) (by omega)
        have e : i + (j + 1) = i + 1 + j := by omega
        rw [e] at hij
        exact hij)]
    simp only [Option.map_some']
    rw [List.range_succ_eq_map]
    simp only [List.map_cons, List.map_map]
    have htail : (List.range n).map (fun j => mk_read_packet (i + 1 + j) (t - 58 - 58 * j))
        = (List.range n).map ((fun j => mk_read_packet (i + j) (t - 58 * j)) ∘ Nat.succ) := by
      refine List.map_congr_left ?_
      intro j _
      simp only [Function.comp_apply, Nat.succ_eq_add_one]
      rw [show i + (j + 1) = i + 1 + j by omega,
        show t - 58 * (j + 1) = t - 58 - 58 * j by omega]
    rw [htail]
    simp

theorem write_packets_go_spec (data : List Nat) :
    ∀ n i : Nat, (∀ j, j < n → (i + j) * 58 < 65536) →
      divCeil58 (data.length - 58 * i) = n →
      write_packets_go data 0 n i (data.length - 58 * i) =
        some ((List.range n).map fun j =>
          mk_write_packet data ((i + j) * 58)
            (min (data.length - 58 * (i + j)) 58) (58 * (i + j))) := by
  intro n
  induction n with
  | zero => intro i _ _; simp [write_packets_go]
  | succ n ih =>
    intro i h hdiv
    have h0 : i * 58 < 65536 := by simpa using h 0 (by omega)
    have ht : 1 ≤ data.length - 58 * i := divCeil58_pos hdiv
    simp only [write_packets_go]
    rw [if_neg (hi_byte_le (0 + i * 58) (by omega))]
    have harg : data.length - 58 * i - min (data.length - 58 * i) 58
        = data.length - 58 * (i + 1) := by omega
    rw [harg,
      ih (i + 1) (fun j hj => by
        have hij := h (j + 1) (by omega)
        have e : i + (j + 1) = i + 1 + j := by omega
        rw [e] at hij
        exact hij)
        (by
          have := divCeil58_sub_58 hdiv
          rw [show data.length - 58 * i - 58 = data.length - 58 * (i + 1) by omega] at this
          exact this)]
    simp only [Option.map_some']
    rw [List.range_succ_eq_map]
    simp only [List.map_cons, List.map_map]
    have htail : (List.range n).map (fun j => mk_write_packet data ((i + 1 + j) * 58)
          (min (data.length - 58 * (i + 1 + j)) 58) (58 * (i + 1 + j)))
        = (List.range n).map ((fun j => mk_write_packet data ((i + j) * 58)
            (min (data.length - 58 * (i + j)) 58) (58 * (i + j))) ∘ Nat.succ) := by
      refine List.map_congr_left ?_
      intro j _
      simp only [Function.comp_apply, Nat.succ_eq_add_one]
      rw [show i + (j + 1) = i + 1 + j by omega]
    rw [htail, show data.length - (data.length - 58 * i) = 58 * i by omega]
    simp

theorem read_packets_go_overflow :
    ∀ n i t j : Nat, j < n → 65536 ≤ (i + j) * 58 → read_packets_go n i t = none := by
  intro n
  induction n with
  | zero => intro i t j hj _; omega
  | succ n ih =>
    intro i t j hj hov
    simp only [read_packets_go]
    by_cases hg : 255 < i * 58 / 256
    · rw [if_pos hg]
    · rw [if_neg hg]
      have hlt : i * 58 / 256 < 256 := Nat.lt_succ_of_le (Nat.not_lt.mp hg)
      have hi : i * 58 < 65536 := by
        have := (Nat.div_lt_iff_lt_mul (show 0 < 256 by omega)).mp hlt
        omega
      have hj1 : 1 ≤ j := by omega
      rw [ih (i + 1) (t - 58) (j - 1) (by omega)
        (by rw [show i + 1 + (j - 1) = i + j by omega]; exact hov)]
      rfl

/-- C3 (amended): for every target length L at most 65540 — so that every
chunk offset fits the checked u8 conversion of its high byte; the source
otherwise panics — the read builder, and the write builder invoked at start
offset 0, produce `ceil(L / 58)` packets; packet `j` is exactly the header
`[15, 4 (read) / 3 (write), 32, 58j / 256, 58j % 256, min (L - 58j) 58]` in
a zeroed 64-byte buffer (for write followed by the payload slice at offset
`58j`); the two offset bytes of packet `j` decode to `58 j`, so offsets are
strictly increasing from 0; and the length bytes sum to exactly `L`, also
when 58 does not divide `L`. -/
theorem command_builder_spec :
    (∀ L : Nat, L ≤ 65540 → ∃ ps, read_profile_packets L = some ps ∧
      ps.length = divCeil58 L ∧
      (∀ j, j < divCeil58 L → ps.getD j [] = mk_read_packet j (L - 58 * j)) ∧
      (∀ j, j < divCeil58 L →
        256 * (ps.getD j []).getD 3 0 + (ps.getD j []).getD 4 0 = 58 * j) ∧
      (ps.map fun p => p.getD 5 0).sum = L) ∧
    (∀ data : List Nat, data.length ≤ 65540 →
      ∃ ps, build_write_profile_command data 0 = some ps ∧
      ps.length = divCeil58 data.length ∧
      (∀ j, j < divCeil58 data.length → ps.getD j [] =
        mk_write_packet data (58 * j) (min (data.length - 58 * j) 58) (58 * j)) ∧
      (∀ j, j < divCeil58 data.length →
        256 * (ps.getD j []).getD 3 0 + (ps.getD j []).getD 4 0 = 58 * j) ∧
      (ps.map fun p => p.getD 5 0).sum = data.length) := by
  constructor
  · intro L hL
    have hcond : ∀ j, j < divCeil58 L → (0 + j) * 58 < 65536 := by
      intro j hj
      have := divCeil58_le_1130 L hL
      omega
    have hgo := read_packets_go_spec (divCeil58 L) 0 L hcond
    refine ⟨_, by rw [read_profile_packets, hgo], by simp, ?_, ?_, ?_⟩
    · intro j hj
      rw [getD_range_map _ _ _ hj]
      congr 1
      omega
    · intro j hj
      rw [getD_range_map _ _ _ hj]
      simp only [mk_read_packet, List.cons_append, List.getD_cons_succ,
        List.getD_cons_zero]
      rw [Nat.div_add_mod, Nat.zero_add, Nat.mul_comm]
    · rw [List.map_map]
      have : (List.range (divCeil58 L)).map
            ((fun p => p.getD 5 0) ∘ fun j => mk_read_packet (0 + j) (L - 58 * j))
          = (List.range (divCeil58 L)).map fun j => min (L - 58 * j) 58 := by
        refine List.map_congr_left ?_
        intro j _
        simp [mk_read_packet, List.getD_cons_succ, List.getD_cons_zero]
      rw [this, sum_min_len (divCeil58 L) L rfl]
  · intro data hdata
    have hcond : ∀ j, j < divCeil58 data.length → (0 + j) * 58 < 65536 := by
      intro j hj
      have := divCeil58_le_1130 data.length hdata
      omega
    have hgo := write_packets_go_spec data (divCeil58 data.length) 0 hcond
      (by rw [show data.length - 58 * 0 = data.length by omega])
    rw [show data.length - 58 * 0 = data.length by omega] at hgo
    refine ⟨_, by rw [build_write_profile_command, hgo], by simp, ?_, ?_, ?_⟩
    · intro j hj
      rw [getD_range_map _ _ _ hj]
      congr 1 <;> omega
    · intro j hj
      rw [getD_range_map _ _ _ hj]
      simp only [mk_write_packet, List.cons_append, List.getD_cons_succ,
        List.getD_cons_zero]
      rw [Nat.div_add_mod, Nat.zero_add, Nat.mul_comm]
    · rw [List.map_map]
      have : (List.range (divCeil58 data.length)).map
            ((fun p => p.getD 5 0) ∘ fun j => mk_write_packet data ((0 + j) * 58)
              (min (data.length - 58 * (0 + j)) 58) (58 * (0 + j)))
          = (List.range (divCeil58 data.length)).map
              fun j => min (data.length - 58 * j) 58 := by
        refine List.map_congr_left ?_
        intro j _
        simp [mk_write_packet, List.getD_cons_succ, List.getD_cons_zero]
      rw [this, sum_min_len (divCeil58 data.length) data.length rfl]

/-- Counterexample to C3 as stated: at target length 65541 the final packet
offset is 65540, whose high byte 65540 / 256 = 256 does not fit a u8, so the
builder produces no packet list at all (the source panics in
`try_into().unwrap()`) instead of ceil(65541 / 58) packets.  The write
builder has the same checked conversion and fails the same way as soon as a
packet offset reaches 65536. -/
theorem command_builder_overflow_counterexample :
    read_profile_packets 65541 = none ∧
    build_write_profile_command [0] 65536 = none := by
  constructor
  · rw [read_profile_packets, show divCeil58 65541 = 1131 by rfl]
    exact read_packets_go_overflow 1131 0 65541 1130 (by omega) (by omega)
  · rfl

/-- Witness for command_builder_spec at the two lengths the source invokes:
635 (read, light profile) and a 635-byte write payload. -/
theorem command_builder_spec_witness :
    (∃ ps, read_profile_packets 635 = some ps ∧
      ps.length = divCeil58 635 ∧
      (∀ j, j < divCeil58 635 → ps.getD j [] = mk_read_packet j (635 - 58 * j)) ∧
      (∀ j, j < divCeil58 635 →
        256 * (ps.getD j []).getD 3 0 + (ps.getD j []).getD 4 0 = 58 * j) ∧
      (ps.map fun p => p.getD 5 0).sum = 635) ∧
    (∃ ps, build_write_profile_command (List.replicate 635 0) 0 = some ps ∧
      ps.length = divCeil58 (List.replicate 635 (0:Nat)).length ∧
      (∀ j, j < divCeil58 (List.replicate 635 (0:Nat)).length → ps.getD j [] =
        mk_write_packet (List.replicate 635 0) (58 * j)
          (min ((List.replicate 635 (0:Nat)).length - 58 * j) 58) (58 * j)) ∧
      (∀ j, j < divCeil58 (List.replicate 635 (0:Nat)).length →
        256 * (ps.getD j []).getD 3 0 + (ps.getD j []).getD 4 0 = 58 * j) ∧
      (ps.map fun p => p.getD 5 0).sum = (List.replicate 635 (0:Nat)).length) :=
  ⟨command_builder_spec.1 635 (by omega),
   command_builder_spec.2 (List.replicate 635 0)
     (by rw [List.length_replicate]; omega)⟩

/-! ## Profile reassembly scenario: claim C5 -/

theorem ack_chunk_step (P : List Nat) (hP : P.length = 635) (i : Nat) (hi : i < 10) :
    ProfileParser.accept ⟨partial_buf P i⟩ (ack_chunk P i) =
      .ok none (partial_buf P (i + 1)) := by
  have hclen : chunk_len i = 58 := by unfold chunk_len; omega
  have hdlen : (ack_chunk P i).length = 64 := by
    simp [ack_chunk, hclen, hP]
    omega
  have h2 : (ack_chunk P i).getD 2 0 = 32 := rfl
  have h3 : (ack_chunk P i).getD 3 0 = 58 * i / 256 := rfl
  have h4 : (ack_chunk P i).getD 4 0 = 58 * i % 256 := rfl
  have h5 : (ack_chunk P i).getD 5 0 = chunk_len i := rfl
  rw [hclen] at h5
  have hdrop6 : (ack_chunk P i).drop 6 = (P.drop (58 * i)).take (chunk_len i) := rfl
  rw [hclen] at hdrop6
  have hbuf : (partial_buf P i).length = 635 := by
    simp [partial_buf, hP]
    omega
  simp only [ProfileParser.accept, hdlen, h2, h3, h4, h5, hdrop6, Nat.div_add_mod, hbuf]
  rw [if_pos trivial]
  rw [if_neg (show ¬ 635 < 58 * i + 58 by omega)]
  rw [if_neg (show ¬ (64:Nat) < 6 + 58 by norm_num)]
  rw [if_neg (show ¬ 635 < 58 * i + 58 by omega)]
  rw [if_pos (show ¬ 58 * i + 58 = 635 by omega)]
  simp only [List.take_take, Nat.min_self]
  have e1 : (partial_buf P i).take (58 * i) = P.take (58 * i) := by
    unfold partial_buf
    exact List.take_left' (by rw [List.length_take]; omega)
  have e2 : (partial_buf P i).drop (58 * i + 58) = List.replicate (635 - 58 * (i + 1)) 0 := by
    unfold partial_buf
    rw [List.drop_append_eq_append_drop,
      List.drop_eq_nil_of_le (by rw [List.length_take]; omega), List.nil_append,
      show 58 * i + 58 - (P.take (58 * i)).length = 58 by rw [List.length_take]; omega,
      List.drop_replicate,
      show 635 - 58 * i - 58 = 635 - 58 * (i + 1) by omega]
  have e3 : P.take (58 * i) ++ (P.drop (58 * i)).take 58 = P.take (58 * (i + 1)) := by
    rw [show 58 * (i + 1) = 58 * i + 58 by omega, List.take_add]
  rw [e1, e2, e3]
  unfold partial_buf
  rfl

theorem ack_chunk_final (P : List Nat) (hP : P.length = 635) (prof : LightProfile)
    (hread : LightProfile.read P = some (prof, [])) :
    ProfileParser.accept ⟨partial_buf P 10⟩ (ack_chunk P 10) =
      .ok (some (.light prof)) P := by
  have hclen : chunk_len 10 = 55 := rfl
  have hdlen : (ack_chunk P 10).length = 61 := by
    simp [ack_chunk, hclen, hP]
  have h2 : (ack_chunk P 10).getD 2 0 = 32 := rfl
  have h3 : (ack_chunk P 10).getD 3 0 = 58 * 10 / 256 := rfl
  have h4 : (ack_chunk P 10).getD 4 0 = 58 * 10 % 256 := rfl
  have h5 : (ack_chunk P 10).getD 5 0 = 55 := rfl
  have hdrop6 : (ack_chunk P 10).drop 6 = (P.drop (58 * 10)).take 55 := rfl
  have hbuf : (partial_buf P 10).length = 635 := by
    simp [partial_buf, hP]
  simp only [ProfileParser.accept, hdlen, h2, h3, h4, h5, hdrop6, Nat.div_add_mod, hbuf]
  rw [if_pos trivial]
  rw [if_neg (show ¬ 635 < 58 * 10 + 55 by omega)]
  rw [if_neg (show ¬ (61:Nat) < 6 + 55 by norm_num)]
  rw [if_neg (show ¬ 635 < 58 * 10 + 55 by omega)]
  rw [if_neg (not_not_intro (show 58 * 10 + 55 = 635 by omega))]
  simp only [List.take_take, Nat.min_self]
  have e1 : (partial_buf P 10).take (58 * 10) = P.take (58 * 10) := by
    unfold partial_buf
    exact List.take_left' (by rw [List.length_take]; omega)
  have e2 : (partial_buf P 10).drop (58 * 10 + 55) = ([] : List Nat) :=
    List.drop_eq_nil_of_le (by rw [hbuf])
  have e3 : P.take (58 * 10) ++ (P.drop (58 * 10)).take 55 = P := by
    rw [show (55:Nat) = 58 * 10 + 55 - 58 * 10 by omega, ← List.take_add]
    exact List.take_of_length_le (by omega)
  rw [e1, e2, List.append_nil, e3, hread]
  rfl

theorem acceptAll_nil (st : ProfileParser) : acceptAll st [] = some ([], st) := rfl

theorem acceptAll_cons (st : ProfileParser) (d : List Nat) (ds : List (List Nat)) :
    acceptAll st (d :: ds) =
      match st.accept d with
      | .ok p st2 => (acceptAll ⟨st2⟩ ds).map fun q => (p :: q.1, q.2)
      | _ => none := rfl

theorem acceptAll_chain (P : List Nat) (prof : LightProfile) (hP : P.length = 635)
    (hread : LightProfile.read P = some (prof, [])) :
    ∀ m k : Nat, k + m = 10 →
      acceptAll ⟨partial_buf P k⟩ ((List.range' k (m + 1)).map (ack_chunk P)) =
        some (List.replicate m none ++ [some (.light prof)], ⟨P⟩) := by
  intro m
  induction m with
  | zero =>
    intro k hk
    have hk10 : k = 10 := by omega
    subst hk10
    rw [show List.range' 10 1 = [10] from rfl, List.map_cons, List.map_nil,
      acceptAll_cons]
    simp only [ack_chunk_final P hP prof hread]
    rw [acceptAll_nil]
    simp
  | succ m ih =>
    intro k hk
    rw [List.range'_succ, List.map_cons, acceptAll_cons]
    simp only [ack_chunk_step P hP k (by omega)]
    rw [ih (k + 1) (by omega)]
    simp [List.replicate_succ]

/-- C5: feeding a fresh ProfileParser the eleven acknowledgment chunks with
exactly the offsets and lengths the command builder produces for target
length 635 (offsets 0, 58, …, 580; ten chunks of 58 bytes and a final chunk
of 55 bytes of a stored profile `P` with a valid config byte), in that
order, returns no profile on each of the first ten calls and a decoded
profile exactly on the eleventh. -/
theorem reassembly_completes_on_final_chunk (P : List Nat) (hP : P.length = 635)
    (hcfg : P.getD 0 0 ≤ 3) :
    ∃ prof, LightProfile.read P = some (prof, []) ∧
      acceptAll ProfileParser.new ((List.range 11).map (ack_chunk P)) =
        some (List.replicate 10 none ++ [some (.light prof)], ⟨P⟩) := by
  obtain ⟨prof, hread⟩ := lightProfile_read_some P (by omega) hcfg
  rw [List.drop_eq_nil_of_le (by omega)] at hread
  refine ⟨prof, hread, ?_⟩
  have h0 : ProfileParser.new = ⟨partial_buf P 0⟩ := rfl
  rw [h0, List.range_eq_range']
  exact acceptAll_chain P prof hP hread 10 0 (by omega)

/-- Witness for reassembly_completes_on_final_chunk: the all-zero stored
profile. -/
theorem reassembly_completes_on_final_chunk_witness :
    ∃ prof, LightProfile.read (List.replicate 635 0) = some (prof, []) ∧
      acceptAll ProfileParser.new
          ((List.range 11).map (ack_chunk (List.replicate 635 0))) =
        some (List.replicate 10 none ++ [some (.light prof)],
          ⟨List.replicate 635 0⟩) :=
  reassembly_completes_on_final_chunk (List.replicate 635 0)
    (by rw [List.length_replicate])
    (by rw [show List.replicate 635 (0:Nat) = 0 :: List.replicate 634 0 from rfl,
            List.getD_cons_zero]; omega)

/-! ## Gamepad state decoder: claims C8 and C9 -/

theorem drop_getD_cons {l : List Nat} {n : Nat} (h : n < l.length) :
    l.drop n = l.getD n 0 :: l.drop (n + 1) := by
  rw [List.drop_eq_getElem_cons h, List.getD_eq_getElem l 0 h]

theorem slice_35_53 (buf : List Nat) (h : buf.length = 64) :
    (buf.drop 35).take 18 =
      [buf.getD 35 0, buf.getD 36 0, buf.getD 37 0, buf.getD 38 0, buf.getD 39 0,
       buf.getD 40 0, buf.getD 41 0, buf.getD 42 0, buf.getD 43 0, buf.getD 44 0,
       buf.getD 45 0, buf.getD 46 0, buf.getD 47 0, buf.getD 48 0, buf.getD 49 0,
       buf.getD 50 0, buf.getD 51 0, buf.getD 52 0] := by
  rw [drop_getD_cons (show 35 < buf.length by omega),
    drop_getD_cons (show 36 < buf.length by omega),
    drop_getD_cons (show 37 < buf.length by omega),
    drop_getD_cons (show 38 < buf.length by omega),
    drop_getD_cons (show 39 < buf.length by omega),
    drop_getD_cons (show 40 < buf.length by omega),
    drop_getD_cons (show 41 < buf.length by omega),
    drop_getD_cons (show 42 < buf.length by omega),
    drop_getD_cons (show 43 < buf.length by omega),
    drop_getD_cons (show 44 < buf.length by omega),
    drop_getD_cons (show 45 < buf.length by omega),
    drop_getD_cons (show 46 < buf.length by omega),
    drop_getD_cons (show 47 < buf.length by omega),
    drop_getD_cons (show 48 < buf.length by omega),
    drop_getD_cons (show 49 < buf.length by omega),
    drop_getD_cons (show 50 < buf.length by omega),
    drop_getD_cons (show 51 < buf.length by omega),
    drop_getD_cons (show 52 < buf.length by omega)]
  rfl

theorem parse_gamepad_state_64 (buf : List Nat) (h : buf.length = 64) :
    parse_gamepad_state buf = some
      ⟨is_bit_set (buf.getD 53 0) 0 || is_bit_set (buf.getD 53 0) 1,
       if is_bit_set (buf.getD 53 0) 4 then some RecordKey.FL1
       else if is_bit_set (buf.getD 53 0) 5 then some RecordKey.FR1 else none,
       buf.getD 35 0, buf.getD 36 0, buf.getD 37 0,
       [(buf.getD 38 0, buf.getD 39 0, buf.getD 40 0),
        (buf.getD 41 0, buf.getD 42 0, buf.getD 43 0),
        (buf.getD 44 0, buf.getD 45 0, buf.getD 46 0),
        (buf.getD 47 0, buf.getD 48 0, buf.getD 49 0),
        (buf.getD 50 0, buf.getD 51 0, buf.getD 52 0)]⟩ := by
  have h53 : buf.get? 53 = some (buf.getD 53 0) := by
    rw [List.get?_eq_getElem?, List.getElem?_eq_getElem (show 53 < buf.length by omega),
      List.getD_eq_getElem buf 0 (show 53 < buf.length by omega)]
  simp only [parse_gamepad_state, h53]
  rw [if_neg (show ¬ buf.length < 53 by omega), slice_35_53 buf h]
  rfl

/-- C9: parse_gamepad_state is a pure function of its buffer; on every
64-byte report it succeeds (no out-of-range access, no panic), and its
result is determined exactly by byte 53 (the recording flags) and bytes
35–52 (charge state, battery level, config index and five RGB triples), all
of which lie inside the 64-byte report. -/
theorem parse_gamepad_state_total_spec (buf : List Nat) (h : buf.length = 64) :
    parse_gamepad_state buf = some
      ⟨is_bit_set (buf.getD 53 0) 0 || is_bit_set (buf.getD 53 0) 1,
       if is_bit_set (buf.getD 53 0) 4 then some RecordKey.FL1
       else if is_bit_set (buf.getD 53 0) 5 then some RecordKey.FR1 else none,
       buf.getD 35 0, buf.getD 36 0, buf.getD 37 0,
       [(buf.getD 38 0, buf.getD 39 0, buf.getD 40 0),
        (buf.getD 41 0, buf.getD 42 0, buf.getD 43 0),
        (buf.getD 44 0, buf.getD 45 0, buf.getD 46 0),
        (buf.getD 47 0, buf.getD 48 0, buf.getD 49 0),
        (buf.getD 50 0, buf.getD 51 0, buf.getD 52 0)]⟩ :=
  parse_gamepad_state_64 buf h

/-- Witness: the decoder succeeds on the all-zero 64-byte report. -/
theorem parse_gamepad_state_total_spec_witness :
    (parse_gamepad_state (List.replicate 64 0)).isSome = true := by
  rw [parse_gamepad_state_total_spec (List.replicate 64 0) (by rw [List.length_replicate])]
  rfl

/-- C8: for every 64-byte input report the decoder sets the recording flag
exactly when bit 0 or bit 1 of byte 53 is set, and the record key to FL1
when bit 4 of byte 53 is set, else FR1 when bit 5 is set, else none — bit 4
checked before bit 5. -/
theorem gamepad_record_flags_spec (buf : List Nat) (h : buf.length = 64) :
    ∃ st, parse_gamepad_state buf = some st ∧
      st.is_recording = (is_bit_set (buf.getD 53 0) 0 || is_bit_set (buf.getD 53 0) 1) ∧
      st.record_key = (if is_bit_set (buf.getD 53 0) 4 then some RecordKey.FL1
        else if is_bit_set (buf.getD 53 0) 5 then some RecordKey.FR1 else none) :=
  ⟨_, parse_gamepad_state_64 buf h, rfl, rfl⟩

/-- Witness: byte 53 = 0b00010000 gives record key FL1 and no recording;
byte 53 = 0b00000011 gives recording with no record key. -/
theorem gamepad_record_flags_spec_witness :
    (∃ st, parse_gamepad_state (List.replicate 53 0 ++ [16] ++ List.replicate 10 0)
        = some st ∧ st.is_recording = false ∧ st.record_key = some RecordKey.FL1) ∧
    (∃ st, parse_gamepad_state (List.replicate 53 0 ++ [3] ++ List.replicate 10 0)
        = some st ∧ st.is_recording = true ∧ st.record_key = none) := by
  constructor
  · obtain ⟨st, hst, h1, h2⟩ := gamepad_record_flags_spec
      (List.replicate 53 0 ++ [16] ++ List.replicate 10 0) (by simp)
    exact ⟨st, hst, by rw [h1]; decide, by rw [h2]; decide⟩
  · obtain ⟨st, hst, h1, h2⟩ := gamepad_record_flags_spec
      (List.replicate 53 0 ++ [3] ++ List.replicate 10 0) (by simp)
    exact ⟨st, hst, by rw [h1]; decide, by rw [h2]; decide⟩

/-! ## Worker ack dispatch: claims C1 and C7 -/

/-- C1 (code bug): when the current request is GetColorProfile and a
firmware-version ack (byte 1 = 10) arrives, the worker warns and continues —
but the source runs `current_req.take()` before testing the pattern, so the
request slot is emptied: the pending GetColorProfile request is dropped and
can never be completed by a later matching acknowledgment, contrary to the
"packet otherwise ignored" contract (the profile-ack branch, by contrast,
leaves a mismatching request untouched). -/
theorem fw_ack_mismatch_clears_pending_request :
    handle_ack_packet fw_ack_plain_packet (some .getColorProfile) ProfileParser.new
      = ⟨none, ProfileParser.new, .warnedUnexpectedFirmwareAck⟩ ∧
    (handle_ack_packet fw_ack_plain_packet (some .getColorProfile)
        ProfileParser.new).current_req ≠ some Request.getColorProfile ∧
    handle_ack_packet profile_ack_plain_packet (some .getFirmwareVersion)
        ProfileParser.new
      = ⟨some .getFirmwareVersion, ProfileParser.new, .warnedUnexpectedProfileAck⟩ :=
  ⟨rfl, by decide, rfl⟩

/-- C7 (amended): a firmware-version ack packet (64 bytes, byte 1 = 10) that
completes a pending GetFirmwareVersion request yields the firmware version
from the five bytes at indices 4–8 (the slice `buf[4..9]`) and the dongle
version from the five bytes at indices 12–16 (`buf[12..17]`), handed to the
lossy ASCII decoding without trimming. -/
theorem firmware_ack_completion_spec (buf : List Nat) (parser : ProfileParser)
    (hlen : buf.length = 64) (hcode : buf.getD 1 0 = 10) :
    handle_ack_packet buf (some .getFirmwareVersion) parser =
      ⟨none, parser, .completedFirmware
        [buf.getD 4 0, buf.getD 5 0, buf.getD 6 0, buf.getD 7 0, buf.getD 8 0]
        [buf.getD 12 0, buf.getD 13 0, buf.getD 14 0, buf.getD 15 0,
         buf.getD 16 0]⟩ := by
  have h1 : buf.get? 1 = some 10 := by
    rw [List.get?_eq_getElem?, List.getElem?_eq_getElem (show 1 < buf.length by omega),
      ← List.getD_eq_getElem buf 0 (show 1 < buf.length by omega), hcode]
  have s1 : byteSlice buf 4 9 =
      [buf.getD 4 0, buf.getD 5 0, buf.getD 6 0, buf.getD 7 0, buf.getD 8 0] := by
    unfold byteSlice
    rw [drop_getD_cons (show 4 < buf.length by omega),
      drop_getD_cons (show 5 < buf.length by omega),
      drop_getD_cons (show 6 < buf.length by omega),
      drop_getD_cons (show 7 < buf.length by omega),
      drop_getD_cons (show 8 < buf.length by omega)]
    rfl
  have s2 : byteSlice buf 12 17 =
      [buf.getD 12 0, buf.getD 13 0, buf.getD 14 0, buf.getD 15 0, buf.getD 16 0] := by
    unfold byteSlice
    rw [drop_getD_cons (show 12 < buf.length by omega),
      drop_getD_cons (show 13 < buf.length by omega),
      drop_getD_cons (show 14 < buf.length by omega),
      drop_getD_cons (show 15 < buf.length by omega),
      drop_getD_cons (show 16 < buf.length by omega)]
    rfl
  simp only [handle_ack_packet, h1, s1, s2]
  rw [if_pos trivial, if_neg (show ¬ buf.length < 17 by omega),
    if_neg (show ¬ (10:Nat) = 5 by norm_num)]

/-- Witness for firmware_ack_completion_spec at the sample packet. -/
theorem firmware_ack_completion_spec_witness :
    fw_ack_sample_packet.length = 64 ∧ fw_ack_sample_packet.getD 1 0 = 10 ∧
    handle_ack_packet fw_ack_sample_packet (some .getFirmwareVersion)
        ProfileParser.new =
      ⟨none, ProfileParser.new, .completedFirmware
        [fw_ack_sample_packet.getD 4 0, fw_ack_sample_packet.getD 5 0,
         fw_ack_sample_packet.getD 6 0, fw_ack_sample_packet.getD 7 0,
         fw_ack_sample_packet.getD 8 0]
        [fw_ack_sample_packet.getD 12 0, fw_ack_sample_packet.getD 13 0,
         fw_ack_sample_packet.getD 14 0, fw_ack_sample_packet.getD 15 0,
         fw_ack_sample_packet.getD 16 0]⟩ :=
  ⟨by decide, by decide,
   firmware_ack_completion_spec fw_ack_sample_packet ProfileParser.new
     (by decide) (by decide)⟩

/-- Counterexample to C7 as stated: under the spec's inclusive byte-range
convention ("bytes 35–52 (18 bytes)"), "bytes 4–9" is six bytes; in this
packet those six bytes read "1.2.34", but the code returns the five bytes of
`buf[4..9]`, "1.2.3" — not the decoding of bytes 4–9. -/
theorem firmware_slice_counterexample :
    (handle_ack_packet fw_ack_sample_packet (some .getFirmwareVersion)
        ProfileParser.new).event =
      .completedFirmware [49, 46, 50, 46, 51] [57, 46, 57, 46, 57] ∧
    fw_version_bytes_per_spec fw_ack_sample_packet = [49, 46, 50, 46, 51, 52] ∧
    ([49, 46, 50, 46, 51] : List Nat) ≠ [49, 46, 50, 46, 51, 52] :=
  ⟨rfl, rfl, by decide⟩

end Opengamesir
